import Mathlib

/-!
Verification of the hms-firetv device command gateway core.

Shallow embedding of the C++ sources:
  * `src/clients/LightningClient.cpp` — protocol client (pairing, availability)
  * `src/mqtt/CommandHandler.cpp`     — command dispatch
  * `include/utils/LRUCache.h`        — TTL/LRU client cache
  * `include/utils/BackgroundLogger.h`— bounded async task queue
  * `include/services/ConnectionPool.h` — blocking-with-timeout pool

Machine time (std::chrono::steady_clock) is modelled as a `Nat` tick count;
outbound HTTP exchanges are modelled by the response the device produces
(`Option HttpResponse`, `none` = no response at all / transport failure);
JSON objects are modelled as string association lists, which covers the only
access pattern the sources use (`isMember` + `asString` on one field).
-/

/-- JSON object, as far as the sources inspect one: a flat map from field
names to string values (`Json::Value::isMember` / `asString`). -/
abbrev JsonObj := List (String × String)

/-- Field access: `body.isMember(key)` is `jsonLookup body key ≠ none`, and
`body[key].asString()` is the value carried by `some`. -/
def jsonLookup (body : JsonObj) (key : String) : Option String :=
  (body.find? (fun p => p.1 = key)).map (fun p => p.2)

/-- What the device sent back on one HTTP exchange: a status code and a
parsed JSON body. -/
structure HttpResponse where
  status : Nat
  body : JsonObj

/-- `CommandResult` from `include/clients/LightningClient.h`: success flag,
HTTP status code (0 when no response was received), parsed body, optional
error string.  The elapsed-time field is not modelled (wall-clock timing). -/
structure CommandResult where
  success : Bool
  status_code : Nat
  response_body : JsonObj
  error : Option String

/-- Shared result-construction logic of `LightningClient::executeGet` and
`LightningClient::executePost` (LightningClient.cpp lines 335-457): a CURL
failure with no response yields `status_code = 0`, `success = false` and an
error string; any received response yields its status code, its parsed body,
and `success` exactly when the status is in [200, 300). -/
def executeRequest : Option HttpResponse → CommandResult
  | none =>
      { success := false, status_code := 0, response_body := [],
        error := some "transport error" }
  | some r =>
      { success := decide (200 ≤ r.status ∧ r.status < 300),
        status_code := r.status, response_body := r.body, error := none }

/-- Mutable per-device state of a `LightningClient`: the pairing token
(`client_token_`).  Address and API key never change after construction and
do not affect the verified behaviour. -/
structure LightningClientState where
  client_token : String

/-- `LightningClient::setClientToken` (LightningClient.cpp lines 133-135). -/
def setClientToken (st : LightningClientState) (token : String) :
    LightningClientState :=
  { st with client_token := token }

/-- `LightningClient::verifyPin` (LightningClient.cpp lines 93-131), with the
POST exchange abstracted by the device response.  On `success && status 200`
it reads the `description` field; a token that is empty or the literal "OK"
is rejected; a valid token is written to `client_token_` and returned; every
other path returns the empty string and leaves the state alone. -/
def verifyPin (st : LightningClientState) (resp : Option HttpResponse) :
    String × LightningClientState :=
  let result := executeRequest resp
  if result.success = true ∧ result.status_code = 200 then
    match jsonLookup result.response_body "description" with
    | some token =>
        if token ≠ "" ∧ token ≠ "OK" then
          (token, { st with client_token := token })
        else
          ("", st)
    | none => ("", st)
  else
    ("", st)

/-- `LightningClient::isLightningApiAvailable` (LightningClient.cpp lines
288-294): GET `/v1/FireTV`, then `status_code > 0` — any response at all,
error statuses included, counts as available. -/
def isLightningApiAvailable (resp : Option HttpResponse) : Bool :=
  (executeRequest resp).status_code > 0

/-- Claim C1: `verifyPin` never writes `""` or `"OK"` into the client token
field (any write leaves a non-empty, non-"OK" token; all other paths leave
the field untouched); and when the verify response is an HTTP 200 whose
`description` field carries a valid token (non-empty, not `"OK"`), that token
is stored in the client state and returned to the caller. -/
theorem verifyPin_stores_only_valid_tokens
    (st : LightningClientState) (resp : Option HttpResponse) :
    ((verifyPin st resp).2.client_token = st.client_token ∨
      ((verifyPin st resp).2.client_token ≠ "" ∧
        (verifyPin st resp).2.client_token ≠ "OK"))
    ∧ (∀ r tok, resp = some r → r.status = 200 →
        jsonLookup r.body "description" = some tok →
        tok ≠ "" → tok ≠ "OK" →
        (verifyPin st resp).1 = tok ∧
          (verifyPin st resp).2.client_token = tok) := by
  constructor
  · cases resp with
    | none => simp [verifyPin, executeRequest]
    | some r =>
        by_cases hs : (200 ≤ r.status ∧ r.status < 300) ∧ r.status = 200
        · cases htok : jsonLookup r.body "description" with
          | none => simp [verifyPin, executeRequest, hs.1, hs.2, htok]
          | some token =>
              by_cases hv : token ≠ "" ∧ token ≠ "OK"
              · right
                simp [verifyPin, executeRequest, hs.1, hs.2, htok, hv]
              · left
                simp [verifyPin, executeRequest, hs.1, hs.2, htok, hv]
        · left
          simp [verifyPin, executeRequest, hs]
  · intro r tok hr hst htok hne hok
    subst hr
    have hrange : 200 ≤ r.status ∧ r.status < 300 := by omega
    simp [verifyPin, executeRequest, hst, hrange, htok, hne, hok]

/-- Witness for C1: verifying against a 200 response carrying token
`tok_abc` stores and returns it. -/
theorem verifyPin_stores_only_valid_tokens_witness :
    (verifyPin ⟨"old"⟩ (some ⟨200, [("description", "tok_abc")]⟩)).1
        = "tok_abc" ∧
    (verifyPin ⟨"old"⟩ (some ⟨200, [("description", "tok_abc")]⟩)).2.client_token
        = "tok_abc" :=
  (verifyPin_stores_only_valid_tokens ⟨"old"⟩
      (some ⟨200, [("description", "tok_abc")]⟩)).2
    ⟨200, [("description", "tok_abc")]⟩ "tok_abc" rfl rfl rfl
    (by decide) (by decide)

/-- Claim C10: every non-success path of `verifyPin` — no response at all,
status other than 200, missing `description` field, or a sentinel token
(`""` / `"OK"`) — returns the empty string and leaves the whole client state
(in particular the stored token) exactly as it was. -/
theorem verifyPin_failure_is_atomic
    (st : LightningClientState) (resp : Option HttpResponse)
    (h : resp = none ∨ ∃ r, resp = some r ∧
        (r.status ≠ 200 ∨ jsonLookup r.body "description" = none ∨
          jsonLookup r.body "description" = some "" ∨
          jsonLookup r.body "description" = some "OK")) :
    (verifyPin st resp).1 = "" ∧ (verifyPin st resp).2 = st := by
  rcases h with h | ⟨r, hr, hcase⟩
  · subst h
    simp [verifyPin, executeRequest]
  · subst hr
    rcases hcase with hst | hmiss | hemp | hok
    · have hcond : ¬((200 ≤ r.status ∧ r.status < 300) ∧ r.status = 200) :=
        fun hc => hst hc.2
      simp [verifyPin, executeRequest, hcond]
    · by_cases hs : (200 ≤ r.status ∧ r.status < 300) ∧ r.status = 200
      · simp [verifyPin, executeRequest, hs.1, hs.2, hmiss]
      · simp [verifyPin, executeRequest, hs]
    · by_cases hs : (200 ≤ r.status ∧ r.status < 300) ∧ r.status = 200
      · simp [verifyPin, executeRequest, hs.1, hs.2, hemp]
      · simp [verifyPin, executeRequest, hs]
    · by_cases hs : (200 ≤ r.status ∧ r.status < 300) ∧ r.status = 200
      · simp [verifyPin, executeRequest, hs.1, hs.2, hok]
      · simp [verifyPin, executeRequest, hs]

/-- Witness for C10: a 200 response carrying the sentinel token "OK" returns
the empty string and leaves the stored token untouched. -/
theorem verifyPin_failure_is_atomic_witness :
    (verifyPin ⟨"kept"⟩ (some ⟨200, [("description", "OK")]⟩)).1 = "" ∧
    (verifyPin ⟨"kept"⟩ (some ⟨200, [("description", "OK")]⟩)).2 = ⟨"kept"⟩ :=
  verifyPin_failure_is_atomic ⟨"kept"⟩ (some ⟨200, [("description", "OK")]⟩)
    (Or.inr ⟨⟨200, [("description", "OK")]⟩, rfl, Or.inr (Or.inr (Or.inr (by decide)))⟩)

/-- Claim C9: `isLightningApiAvailable` returns `true` exactly when the
device produced any HTTP response at all (every real HTTP status code is
positive, so error statuses count as available), and `false` only when the
request yielded no response. -/
theorem isLightningApiAvailable_iff_any_response
    (resp : Option HttpResponse)
    (hstatus : ∀ r, resp = some r → 0 < r.status) :
    isLightningApiAvailable resp = true ↔ resp ≠ none := by
  cases resp with
  | none => simp [isLightningApiAvailable, executeRequest]
  | some r =>
      simp [isLightningApiAvailable, executeRequest]
      exact hstatus r rfl

/-- Witness for C9: a bare 500 error response still counts as available. -/
theorem isLightningApiAvailable_iff_any_response_witness :
    isLightningApiAvailable (some ⟨500, []⟩) = true :=
  (isLightningApiAvailable_iff_any_response (some ⟨500, []⟩)
    (fun r hr => by cases hr; decide)).mpr (fun h => Option.noConfusion h)

/-- `LRUCache<K, V>` from `include/utils/LRUCache.h`.  The C++ object keeps a
recency list (`lru_list_`, front = MRU, back = LRU) and a hash map from key to
(value, expiry time, list iterator); since the two are kept in lockstep they
are modelled as one association list in recency order.  `maxSize` is
`max_size_`, `ttl` is `ttl_` in ticks, and each entry carries its absolute
expiry tick. -/
structure LRUCache (K V : Type) where
  maxSize : Nat
  ttl : Nat
  entries : List (K × V × Nat)

/-- A fresh cache, as built by the constructor (lines 32-33). -/
def LRUCache.empty (K V : Type) (max_size ttl_seconds : Nat) : LRUCache K V :=
  { maxSize := max_size, ttl := ttl_seconds, entries := [] }

/-- `LRUCache::isExpired` (line 168-170): `Clock::now() >= expiry_time`. -/
def LRUCache.isExpired (now expiry : Nat) : Bool :=
  decide (expiry ≤ now)

/-- `LRUCache::size` (lines 113-116). -/
def LRUCache.size {K V : Type} (c : LRUCache K V) : Nat :=
  c.entries.length

/-- The list/map erasure shared by `evict` and `evictNoLock` (lines 180-194):
drop the entry stored under `k` from both structures. -/
def LRUCache.eraseKey {K V : Type} [DecidableEq K]
    (es : List (K × V × Nat)) (k : K) : List (K × V × Nat) :=
  es.filter (fun e => decide (e.1 ≠ k))

/-- `cache_map_.find(key)` (used by `get` and `put`). -/
def LRUCache.findEntry {K V : Type} [DecidableEq K]
    (c : LRUCache K V) (k : K) : Option (K × V × Nat) :=
  c.entries.find? (fun e => decide (e.1 = k))

/-- `LRUCache::get` (lines 40-58): miss on absent key; an expired entry is
evicted on access and reported absent; a live entry is spliced to the front
of the recency list and its value returned. -/
def LRUCache.get {K V : Type} [DecidableEq K]
    (c : LRUCache K V) (k : K) (now : Nat) : Option V × LRUCache K V :=
  match c.findEntry k with
  | none => (none, c)
  | some e =>
      if LRUCache.isExpired now e.2.2 then
        (none, { c with entries := LRUCache.eraseKey c.entries k })
      else
        (some e.2.1, { c with entries := e :: LRUCache.eraseKey c.entries k })

/-- `LRUCache::evictLRU` (lines 172-178): drop the back of the recency list
(no-op on an empty cache). -/
def LRUCache.evictLRU {K V : Type}
    (es : List (K × V × Nat)) : List (K × V × Nat) :=
  es.dropLast

/-- `LRUCache::put` (lines 65-90): refresh an existing key (new value, new
expiry, spliced to the front); otherwise evict the LRU entry first when
`size >= max_size_`, then insert the fresh entry at the front. -/
def LRUCache.put {K V : Type} [DecidableEq K]
    (c : LRUCache K V) (k : K) (v : V) (now : Nat) : LRUCache K V :=
  match c.findEntry k with
  | some _ =>
      { c with entries := (k, v, now + c.ttl) :: LRUCache.eraseKey c.entries k }
  | none =>
      let es := if c.maxSize ≤ c.entries.length
        then LRUCache.evictLRU c.entries else c.entries
      { c with entries := (k, v, now + c.ttl) :: es }

/-- `LRUCache::remove` (lines 96-99). -/
def LRUCache.removeKey {K V : Type} [DecidableEq K]
    (c : LRUCache K V) (k : K) : LRUCache K V :=
  { c with entries := LRUCache.eraseKey c.entries k }

/-- `LRUCache::cleanupExpired` (lines 134-159): evict every expired entry
(recency order of the survivors is preserved), returning how many were
removed. -/
def LRUCache.cleanupExpired {K V : Type}
    (c : LRUCache K V) (now : Nat) : Nat × LRUCache K V :=
  let kept := c.entries.filter (fun e => !LRUCache.isExpired now e.2.2)
  (c.entries.length - kept.length, { c with entries := kept })

/-- One cache operation, for stating whole-trace invariants. -/
inductive CacheOp (K V : Type) where
  | get (k : K) (now : Nat)
  | put (k : K) (v : V) (now : Nat)
  | removeKey (k : K)
  | cleanupExpired (now : Nat)

/-- Run one operation for its state effect. -/
def CacheOp.apply {K V : Type} [DecidableEq K]
    (op : CacheOp K V) (c : LRUCache K V) : LRUCache K V :=
  match op with
  | .get k now => (c.get k now).2
  | .put k v now => c.put k v now
  | .removeKey k => c.removeKey k
  | .cleanupExpired now => (c.cleanupExpired now).2

/-- Run a whole sequence of operations. -/
def CacheOp.applyAll {K V : Type} [DecidableEq K]
    (ops : List (CacheOp K V)) (c : LRUCache K V) : LRUCache K V :=
  ops.foldl (fun c op => op.apply c) c

/-- Claim C4: an entry inserted at tick `t0` with the cache TTL is reported
absent by any `get` strictly after `t0 + ttl`, with no `cleanupExpired` in
between (the access itself lazily evicts it). -/
theorem get_after_ttl_is_absent {K V : Type} [DecidableEq K]
    (c : LRUCache K V) (k : K) (v : V) (t0 now : Nat)
    (h : t0 + c.ttl < now) :
    ((c.put k v t0).get k now).1 = none ∧
    (((c.put k v t0).get k now).2.findEntry k = none) := by
  have hfront : ∃ es, (c.put k v t0).entries = (k, v, t0 + c.ttl) :: es := by
    unfold LRUCache.put
    cases c.findEntry k with
    | none => exact ⟨_, rfl⟩
    | some e => exact ⟨_, rfl⟩
  obtain ⟨es, hes⟩ := hfront
  have hfind : (c.put k v t0).findEntry k = some (k, v, t0 + c.ttl) := by
    unfold LRUCache.findEntry
    rw [hes]
    exact List.find?_cons_of_pos _ (by simp)
  have hexp : LRUCache.isExpired now (t0 + c.ttl) = true := by
    simp [LRUCache.isExpired]
    omega
  constructor
  · simp [LRUCache.get, hfind, hexp]
  · simp only [LRUCache.get, hfind, hexp, if_pos]
    unfold LRUCache.findEntry LRUCache.eraseKey
    apply List.find?_eq_none.mpr
    intro e he
    have := (List.mem_filter.mp he).2
    simp at this ⊢
    exact this

/-- Witness for C4: insert at tick 0 with TTL 5, look up at tick 6. -/
theorem get_after_ttl_is_absent_witness :
    (((LRUCache.empty Nat Nat 10 5).put 3 42 0).get 3 6).1 = none :=
  (get_after_ttl_is_absent (LRUCache.empty Nat Nat 10 5) 3 42 0 6 (by decide)).1

/-- Filtering out an element that is present strictly shrinks a list. -/
theorem length_filter_lt_of_mem {α : Type} (l : List α) (p : α → Bool)
    (x : α) (hx : x ∈ l) (hpx : ¬ p x = true) :
    (l.filter p).length < l.length := by
  induction l with
  | nil => cases hx
  | cons a t ih =>
      rcases List.mem_cons.mp hx with h | h
      · subst h
        simp [List.filter_cons, hpx]
        calc (t.filter p).length ≤ t.length := t.length_filter_le p
        _ < t.length + 1 := Nat.lt_succ_self _
      · by_cases hpa : p a = true
        · simpa [List.filter_cons, hpa] using Nat.succ_lt_succ (ih h)
        · simp [List.filter_cons, hpa]
          calc (t.filter p).length ≤ t.length := t.length_filter_le p
          _ < t.length + 1 := Nat.lt_succ_self _

/-- Erasing a key that `find?` locates strictly shrinks the entry list. -/
theorem LRUCache.eraseKey_length_lt {K V : Type} [DecidableEq K]
    (c : LRUCache K V) (k : K) (e : K × V × Nat)
    (he : c.findEntry k = some e) :
    (LRUCache.eraseKey c.entries k).length < c.entries.length := by
  have hmem : e ∈ c.entries := List.mem_of_find?_eq_some he
  have hpe : e.1 = k := by
    have := List.find?_some he
    simpa using this
  exact length_filter_lt_of_mem c.entries _ e hmem (by simp [hpe])

/-- A single cache operation preserves the capacity bound (for a positive
capacity) and never touches the configured capacity itself. -/
theorem CacheOp.apply_size_le {K V : Type} [DecidableEq K]
    (op : CacheOp K V) (c : LRUCache K V)
    (hmax : 1 ≤ c.maxSize) (h : c.size ≤ c.maxSize) :
    (op.apply c).size ≤ c.maxSize ∧ (op.apply c).maxSize = c.maxSize := by
  cases op with
  | get k now =>
      cases hf : c.findEntry k with
      | none => simp [CacheOp.apply, LRUCache.get, hf, h]
      | some e =>
          by_cases hexp : LRUCache.isExpired now e.2.2 = true
          · refine ⟨?_, by simp [CacheOp.apply, LRUCache.get, hf, hexp]⟩
            simp only [CacheOp.apply, LRUCache.get, hf, hexp, if_pos]
            calc (LRUCache.eraseKey c.entries k).length
                ≤ c.entries.length := c.entries.length_filter_le _
              _ ≤ c.maxSize := h
          · refine ⟨?_, by simp [CacheOp.apply, LRUCache.get, hf, hexp]⟩
            simp only [CacheOp.apply, LRUCache.get, hf, hexp, if_neg,
              Bool.not_eq_true, LRUCache.size, List.length_cons]
            have := c.eraseKey_length_lt k e hf
            unfold LRUCache.size at h
            omega
  | put k v now =>
      cases hf : c.findEntry k with
      | some e =>
          refine ⟨?_, by simp [CacheOp.apply, LRUCache.put, hf]⟩
          simp only [CacheOp.apply, LRUCache.put, hf, LRUCache.size,
            List.length_cons]
          have := c.eraseKey_length_lt k e hf
          unfold LRUCache.size at h
          omega
      | none =>
          by_cases hcap : c.maxSize ≤ c.entries.length
          · refine ⟨?_, by simp [CacheOp.apply, LRUCache.put, hf]⟩
            simp only [CacheOp.apply, LRUCache.put, hf, hcap, if_pos,
              LRUCache.size, List.length_cons, LRUCache.evictLRU,
              List.length_dropLast]
            unfold LRUCache.size at h
            omega
          · refine ⟨?_, by simp [CacheOp.apply, LRUCache.put, hf]⟩
            simp only [CacheOp.apply, LRUCache.put, hf, hcap, if_neg,
              not_false_eq_true, LRUCache.size, List.length_cons]
            unfold LRUCache.size at h
            omega
  | removeKey k =>
      refine ⟨?_, rfl⟩
      calc (c.removeKey k).size
          ≤ c.entries.length := c.entries.length_filter_le _
        _ ≤ c.maxSize := h
  | cleanupExpired now =>
      refine ⟨?_, rfl⟩
      calc ((c.cleanupExpired now).2).size
          ≤ c.entries.length := c.entries.length_filter_le _
        _ ≤ c.maxSize := h

/-- Any operation sequence preserves the capacity bound. -/
theorem CacheOp.applyAll_size_le {K V : Type} [DecidableEq K]
    (ops : List (CacheOp K V)) (c : LRUCache K V)
    (hmax : 1 ≤ c.maxSize) (h : c.size ≤ c.maxSize) :
    (CacheOp.applyAll ops c).size ≤ c.maxSize := by
  induction ops generalizing c with
  | nil => exact h
  | cons op rest ih =>
      obtain ⟨h1, h2⟩ := op.apply_size_le c hmax h
      have := ih (op.apply c) (h2 ▸ hmax) (h2 ▸ h1)
      rw [h2] at this
      exact this

/-- Counterexample to C8 as stated: with capacity `N = 0`, a single `put`
leaves one stored entry, so the size exceeds the configured capacity
(`put` evicts from an empty recency list — a no-op — and then inserts). -/
theorem lru_capacity_zero_exceeded :
    (CacheOp.applyAll [CacheOp.put 7 1 0] (LRUCache.empty Nat Nat 0 10)).size
        = 1 ∧
    ¬ (CacheOp.applyAll [CacheOp.put 7 1 0]
        (LRUCache.empty Nat Nat 0 10)).size
      ≤ (LRUCache.empty Nat Nat 0 10).maxSize := by
  decide

/-- Claim C8 (amended with positive capacity): for every cache configured
with capacity `N ≥ 1` and every finite sequence of get/put/remove/
cleanupExpired operations starting from the fresh cache, the number of
stored entries never exceeds `N` after any prefix of the sequence. -/
theorem lru_size_never_exceeds_capacity {K V : Type} [DecidableEq K]
    (N ttl : Nat) (hN : 1 ≤ N) (ops : List (CacheOp K V)) :
    (CacheOp.applyAll ops (LRUCache.empty K V N ttl)).size ≤ N :=
  CacheOp.applyAll_size_le ops (LRUCache.empty K V N ttl) hN (by
    simp [LRUCache.empty, LRUCache.size])

/-- Witness for C8: a capacity-1 cache holds at most one entry after two
inserts and a lookup. -/
theorem lru_size_never_exceeds_capacity_witness :
    (CacheOp.applyAll
        [CacheOp.put 1 10 0, CacheOp.put 2 20 0, CacheOp.get 1 0]
        (LRUCache.empty Nat Nat 1 10)).size ≤ 1 :=
  lru_size_never_exceeds_capacity 1 10 (by decide)
    [CacheOp.put 1 10 0, CacheOp.put 2 20 0, CacheOp.get 1 0]

/-- One task handed to `BackgroundLogger::enqueue`: an identifier plus
whether running it raises an exception (the worker catches either way). -/
structure LogTask where
  id : Nat
  throws : Bool
deriving DecidableEq

/-- `BackgroundLogger` from `include/utils/BackgroundLogger.h`:
`max_queue_size_`, the pending `queue_` (front = oldest), the
`dropped_count_` counter, and — for stating execution-order properties — the
list of task ids the worker has invoked so far, in invocation order. -/
structure BackgroundLogger where
  maxQueueSize : Nat
  queue : List LogTask
  droppedCount : Nat
  executed : List Nat

/-- A freshly constructed logger (lines 31-32). -/
def BackgroundLogger.init (max_queue_size : Nat) : BackgroundLogger :=
  { maxQueueSize := max_queue_size, queue := [], droppedCount := 0,
    executed := [] }

/-- `BackgroundLogger::enqueue` (lines 88-102): when the queue already holds
`max_queue_size_` tasks the task is dropped, the drop counter is bumped and
`false` is returned; otherwise the task is appended and `true` returned. -/
def BackgroundLogger.enqueue (s : BackgroundLogger) (t : LogTask) :
    Bool × BackgroundLogger :=
  if s.maxQueueSize ≤ s.queue.length then
    (false, { s with droppedCount := s.droppedCount + 1 })
  else
    (true, { s with queue := s.queue ++ [t] })

/-- Enqueue a batch of tasks in order (each call as in `enqueue`). -/
def BackgroundLogger.enqueueAll (s : BackgroundLogger) (ts : List LogTask) :
    BackgroundLogger :=
  ts.foldl (fun s t => (s.enqueue t).2) s

/-- Inner drain loop of `BackgroundLogger::workerLoop` (lines 136-151): pop
the front task and invoke it inside try/catch — an exception is caught and
logged, so the task counts as executed and the loop continues — until the
queue is empty. -/
def BackgroundLogger.drainLoop : List LogTask → List Nat → List Nat
  | [], log => log
  | t :: rest, log => BackgroundLogger.drainLoop rest (log ++ [t.id])

/-- `BackgroundLogger::stop` (lines 62-81): clear `running_`, wake the
worker, and join it; the worker's loop condition
(`running_ || !queue_.empty()`) keeps it draining until the queue is empty,
so `stop` returns only once every previously accepted task has run. -/
def BackgroundLogger.stop (s : BackgroundLogger) : BackgroundLogger :=
  { s with
    queue := []
    executed := BackgroundLogger.drainLoop s.queue s.executed }

/-- The drain loop appends exactly the queued ids, in queue order. -/
theorem BackgroundLogger.drainLoop_eq (q : List LogTask) :
    ∀ log, BackgroundLogger.drainLoop q log = log ++ q.map LogTask.id := by
  induction q with
  | nil => intro log; simp [BackgroundLogger.drainLoop]
  | cons t rest ih =>
      intro log
      simp [BackgroundLogger.drainLoop, ih]

/-- `stop` leaves the execution log holding what had already run followed by
every queued task id, in queue order. -/
theorem BackgroundLogger.stop_executed (s : BackgroundLogger) :
    s.stop.executed = s.executed ++ s.queue.map LogTask.id := by
  show BackgroundLogger.drainLoop s.queue s.executed = _
  rw [BackgroundLogger.drainLoop_eq]

/-- Batch-enqueue behaviour: the free capacity is filled by the prefix of the
batch, every task beyond it is dropped and counted, and nothing else of the
logger changes. -/
theorem BackgroundLogger.enqueueAll_spec :
    ∀ (ts : List LogTask) (s : BackgroundLogger),
      (s.enqueueAll ts).queue
          = s.queue ++ ts.take (s.maxQueueSize - s.queue.length)
      ∧ (s.enqueueAll ts).droppedCount
          = s.droppedCount + (ts.length - (s.maxQueueSize - s.queue.length))
      ∧ (s.enqueueAll ts).maxQueueSize = s.maxQueueSize
      ∧ (s.enqueueAll ts).executed = s.executed := by
  intro ts
  induction ts with
  | nil => intro s; simp [BackgroundLogger.enqueueAll]
  | cons t ts' ih =>
      intro s
      by_cases hfull : s.maxQueueSize ≤ s.queue.length
      · have hzero : s.maxQueueSize - s.queue.length = 0 := by omega
        have hstep : s.enqueueAll (t :: ts')
            = BackgroundLogger.enqueueAll
                { s with droppedCount := s.droppedCount + 1 } ts' := by
          simp [BackgroundLogger.enqueueAll, BackgroundLogger.enqueue, hfull]
        obtain ⟨hq, hd, hm, he⟩ :=
          ih { s with droppedCount := s.droppedCount + 1 }
        rw [hstep]
        refine ⟨?_, ?_, by simpa using hm, by simpa using he⟩
        · rw [hq]
          simp [hzero]
        · rw [hd]
          simp only [List.length_cons, hzero]
          omega
      · have hpos : s.queue.length < s.maxQueueSize := by omega
        have hstep : s.enqueueAll (t :: ts')
            = BackgroundLogger.enqueueAll
                { s with queue := s.queue ++ [t] } ts' := by
          simp [BackgroundLogger.enqueueAll, BackgroundLogger.enqueue, hfull]
        obtain ⟨hq, hd, hm, he⟩ := ih { s with queue := s.queue ++ [t] }
        rw [hstep]
        have harith : s.maxQueueSize - s.queue.length
            = (s.maxQueueSize - (s.queue.length + 1)) + 1 := by omega
        refine ⟨?_, ?_, by simpa using hm, by simpa using he⟩
        · rw [hq]
          simp only [List.length_append, List.length_singleton]
          rw [harith, List.take_succ_cons]
          simp
        · rw [hd]
          simp
          omega

/-- Claim C5: an `enqueue` against a full queue returns not-accepted, leaves
the queue (and everything but the drop counter) unchanged, and bumps the drop
counter by exactly one; concretely, pushing 1001 tasks into a fresh
capacity-1000 logger with the worker idle drops exactly one task, and after
`stop()` exactly the first 1000 tasks have run — the dropped task (id 1000)
never runs. -/
theorem enqueue_full_drops_exactly_one :
    (∀ (s : BackgroundLogger) (t : LogTask),
      s.queue.length = s.maxQueueSize →
      s.enqueue t = (false, { s with droppedCount := s.droppedCount + 1 }))
    ∧ ((BackgroundLogger.init 1000).enqueueAll
        ((List.range 1001).map (fun i => ⟨i, false⟩))).droppedCount = 1
    ∧ ((BackgroundLogger.init 1000).enqueueAll
        ((List.range 1001).map (fun i => ⟨i, false⟩))).stop.executed
      = List.range 1000
    ∧ 1000 ∉ ((BackgroundLogger.init 1000).enqueueAll
        ((List.range 1001).map (fun i => ⟨i, false⟩))).stop.executed := by
  obtain ⟨hq, hd, hm, he⟩ := BackgroundLogger.enqueueAll_spec
    ((List.range 1001).map (fun i => ⟨i, false⟩)) (BackgroundLogger.init 1000)
  have hqueue : ((BackgroundLogger.init 1000).enqueueAll
      ((List.range 1001).map (fun i => ⟨i, false⟩))).queue
      = ((List.range 1001).map (fun i => (⟨i, false⟩ : LogTask))).take 1000 := by
    rw [hq]
    simp [BackgroundLogger.init]
  have hexec : ((BackgroundLogger.init 1000).enqueueAll
      ((List.range 1001).map (fun i => ⟨i, false⟩))).stop.executed
      = List.range 1000 := by
    rw [BackgroundLogger.stop_executed, hqueue, he]
    rw [← List.map_take, List.take_range]
    have hmin : min 1000 1001 = 1000 := by norm_num
    rw [hmin, List.map_map]
    have hcomp : (LogTask.id ∘ fun i => ({ id := i, throws := false } : LogTask))
        = fun i => i := rfl
    rw [hcomp]
    simp [BackgroundLogger.init]
  refine ⟨?_, ?_, hexec, ?_⟩
  · intro s t hlen
    simp [BackgroundLogger.enqueue, hlen]
  · rw [hd]
    simp [BackgroundLogger.init]
  · rw [hexec]
    simp [List.mem_range]

/-- Witness for C5 (for its universally quantified first part): a logger of
capacity 1 with one queued task rejects the next enqueue, leaves the queue
alone and counts one drop. -/
theorem enqueue_full_drops_exactly_one_witness :
    BackgroundLogger.enqueue ⟨1, [⟨0, false⟩], 0, []⟩ ⟨5, true⟩
      = (false, ⟨1, [⟨0, false⟩], 1, []⟩) :=
  enqueue_full_drops_exactly_one.1 ⟨1, [⟨0, false⟩], 0, []⟩ ⟨5, true⟩ rfl

/-- Claim C6: draining on `stop` runs every accepted task, in acceptance
order, appended to whatever already ran; the throws-flags of the tasks have
no influence on what gets executed (an exception is caught, and later tasks
still run); and with a fresh execution log and distinct ids, each accepted
task is executed exactly once. -/
theorem stop_runs_accepted_tasks_in_order (s : BackgroundLogger) :
    (s.stop.executed = s.executed ++ s.queue.map LogTask.id)
    ∧ (∀ f : Nat → Bool,
        (BackgroundLogger.stop
          { s with queue := s.queue.map (fun t => ⟨t.id, f t.id⟩) }).executed
        = s.stop.executed)
    ∧ (s.executed = [] → (s.queue.map LogTask.id).Nodup →
        ∀ t ∈ s.queue, s.stop.executed.count t.id = 1) := by
  have hbase := BackgroundLogger.stop_executed s
  refine ⟨hbase, ?_, ?_⟩
  · intro f
    rw [BackgroundLogger.stop_executed, BackgroundLogger.stop_executed]
    simp [List.map_map, Function.comp]
  · intro hfresh hnodup t ht
    rw [hbase, hfresh, List.nil_append]
    exact List.count_eq_one_of_mem hnodup
      (List.mem_map.mpr ⟨t, ht, rfl⟩)

/-- Witness for C6: two queued tasks, the first one throwing, both run, in
order, exactly once each. -/
theorem stop_runs_accepted_tasks_in_order_witness :
    (BackgroundLogger.stop ⟨10, [⟨3, true⟩, ⟨4, false⟩], 0, []⟩).executed
        = [3, 4]
    ∧ (BackgroundLogger.stop
        ⟨10, [⟨3, true⟩, ⟨4, false⟩], 0, []⟩).executed.count 3 = 1 := by
  have h := stop_runs_accepted_tasks_in_order ⟨10, [⟨3, true⟩, ⟨4, false⟩], 0, []⟩
  exact ⟨by simpa using h.1,
    h.2.2 rfl (by decide) ⟨3, true⟩ (by decide)⟩
/-- Failure modes of `ConnectionPool::acquire` (`include/services/
ConnectionPool.h` lines 111-149): the pool-exhaustion timeout
(`"Connection pool timeout: no connection available within ...ms"`) and the
shutdown error (`"Connection pool is shutting down"`). -/
inductive PoolError where
  | timeout
  | shuttingDown

/-- State of a `ConnectionPool` as `acquire` inspects it: the number of idle
connections in `available_connections_`, the `shutdown_` flag, and
`max_wait_ms_`. -/
structure ConnectionPool where
  available : Nat
  shutdown : Bool
  maxWaitMs : Nat

/-- `ConnectionPool::acquire` (lines 111-149), with blocking modelled
against the chronological list of ticks at which other callers return a
connection (`returnConnection` notifies the condition variable).  The wait
loop runs `cv_.wait_until(lock, deadline)` with `deadline = now +
max_wait_ms_`: if the pool was already shut down the loop is skipped and the
shutdown error thrown; with an idle connection available, acquire returns at
once; otherwise the caller sleeps until the first return that happens by the
deadline (then takes that connection), or until the deadline itself, at
which point the pool-exhaustion error is thrown.  The result is the outcome
paired with the tick at which the call returns; the handed-out connection
itself and the revalidation-on-checkout step play no role in claim C7 and
are not modelled. -/
def ConnectionPool.acquire (p : ConnectionPool) (releases : List Nat)
    (now : Nat) : Except PoolError Unit × Nat :=
  if p.shutdown then (Except.error PoolError.shuttingDown, now)
  else if 0 < p.available then (Except.ok (), now)
  else
    match releases.find? (fun t => decide (t ≤ now + p.maxWaitMs)) with
    | some t => (Except.ok (), max now t)
    | none => (Except.error PoolError.timeout, now + p.maxWaitMs)

/-- Claim C7: `acquire` called with no idle connection on a pool that is not
shut down always terminates by the deadline `now + max_wait_ms_`; when no
connection is returned by the deadline it fails with the pool-exhaustion
error exactly at the deadline (never hangs, never yields a handle); and when
some caller returns a connection by the deadline it succeeds. -/
theorem acquire_bounded_and_fails_when_exhausted
    (p : ConnectionPool) (releases : List Nat) (now : Nat)
    (hs : p.shutdown = false) (ha : p.available = 0) :
    ((p.acquire releases now).2 ≤ now + p.maxWaitMs)
    ∧ ((∀ t ∈ releases, now + p.maxWaitMs < t) →
        (p.acquire releases now).1 = Except.error PoolError.timeout
        ∧ (p.acquire releases now).2 = now + p.maxWaitMs)
    ∧ ((∃ t ∈ releases, t ≤ now + p.maxWaitMs) →
        (p.acquire releases now).1 = Except.ok ()) := by
  refine ⟨?_, ?_, ?_⟩
  · cases hf : releases.find? (fun t => decide (t ≤ now + p.maxWaitMs)) with
    | none => simp [ConnectionPool.acquire, hs, ha, hf]
    | some t =>
        have ht : t ≤ now + p.maxWaitMs := by
          have := List.find?_some hf
          simpa using this
        simp [ConnectionPool.acquire, hs, ha, hf]
        omega
  · intro hlate
    have hf : releases.find? (fun t => decide (t ≤ now + p.maxWaitMs))
        = none := by
      apply List.find?_eq_none.mpr
      intro t ht
      simpa using Nat.not_le.mpr (hlate t ht)
    simp [ConnectionPool.acquire, hs, ha, hf]
  · rintro ⟨t, htmem, htle⟩
    cases hf : releases.find? (fun t => decide (t ≤ now + p.maxWaitMs)) with
    | none =>
        exact absurd htle (by simpa using List.find?_eq_none.mp hf t htmem)
    | some t2 => simp [ConnectionPool.acquire, hs, ha, hf]

/-- Witness for C7: an exhausted pool with a 5000ms budget and no returns
fails with the timeout error exactly 5000 ticks later. -/
theorem acquire_bounded_and_fails_when_exhausted_witness :
    ((ConnectionPool.acquire ⟨0, false, 5000⟩ [] 0).1
        = Except.error PoolError.timeout)
    ∧ (ConnectionPool.acquire ⟨0, false, 5000⟩ [] 0).2 = 0 + 5000 :=
  (acquire_bounded_and_fails_when_exhausted ⟨0, false, 5000⟩ [] 0 rfl rfl).2.1
    (fun t ht => absurd ht (List.not_mem_nil t))

/-- One call issued by the command dispatcher to a `LightningClient` (the
observable protocol-level actions of `CommandHandler`). -/
inductive ClientCall where
  | apiCheck (available : Bool)
  | wake (success : Bool)
  | settleWait (seconds : Nat)
  | navigation (action : String)
  | media (action : String) (direction : String)
  | appLaunch (package : String)
  | keyboard (text : String)
deriving DecidableEq

/-- The device as the dispatcher can observe it: whether the Lightning API
answers (`isLightningApiAvailable`) and whether a wake POST succeeds. -/
structure DeviceState where
  apiAvailable : Bool
  wakeSucceeds : Bool
deriving DecidableEq, Repr

/-- The payload fields `CommandHandler::handleCommand` and its sub-handlers
read from the inbound MQTT JSON (absent field = `none`; a bare string MQTT
payload for text input is modelled through `text`). -/
structure CommandPayload where
  command : Option String := none
  direction : Option String := none
  action : Option String := none
  package : Option String := none
  source : Option String := none
  text : Option String := none

/-- The `app_packages_` table built in the `CommandHandler` constructor
(CommandHandler.cpp lines 16-23). -/
def app_packages : List (String × String) :=
  [("Netflix", "com.netflix.ninja"),
   ("Prime Video", "com.amazon.avod.thirdpartyclient"),
   ("YouTube", "com.google.android.youtube.tv"),
   ("Disney+", "com.disney.disneyplus"),
   ("Hulu", "com.hulu.plus"),
   ("HBO Max", "com.hbo.hbonow"),
   ("Spotify", "com.spotify.tv.android"),
   ("Plex", "com.plexapp.android")]

/-- `CommandHandler::getPackageForApp` (lines 269-289): exact lookup, then a
case-insensitive pass, else the empty string. -/
def getPackageForApp (app_name : String) : String :=
  match app_packages.find? (fun p => p.1 = app_name) with
  | some p => p.2
  | none =>
      match app_packages.find? (fun p => p.1.toLower = app_name.toLower) with
      | some p => p.2
      | none => ""

/-- `CommandHandler::handleMediaCommand` (lines 107-132). -/
def handleMediaCommand (command : String) : List ClientCall :=
  if command = "media_play_pause" ∨ command = "media_play" then
    [ClientCall.media "play" ""]
  else if command = "media_pause" then [ClientCall.media "pause" ""]
  else if command = "media_stop" then [ClientCall.media "pause" ""]
  else if command = "media_next_track" then [ClientCall.media "scan" "forward"]
  else if command = "media_previous_track" then [ClientCall.media "scan" "back"]
  else []

/-- `CommandHandler::handleVolumeCommand` (lines 134-155). -/
def handleVolumeCommand (command : String) : List ClientCall :=
  if command = "volume_up" then [ClientCall.navigation "volume_up"]
  else if command = "volume_down" then [ClientCall.navigation "volume_down"]
  else if command = "volume_mute" then [ClientCall.navigation "volume_mute"]
  else []

/-- `CommandHandler::handleNavigationCommand` (lines 157-205). -/
def handleNavigationCommand (p : CommandPayload) : List ClientCall :=
  match p.direction with
  | some d =>
      if d = "up" then [ClientCall.navigation "dpad_up"]
      else if d = "down" then [ClientCall.navigation "dpad_down"]
      else if d = "left" then [ClientCall.navigation "dpad_left"]
      else if d = "right" then [ClientCall.navigation "dpad_right"]
      else []
  | none =>
      match p.action with
      | some a =>
          if a = "select" ∨ a = "home" ∨ a = "back" ∨ a = "menu" then
            [ClientCall.navigation a]
          else []
      | none => []

/-- `CommandHandler::handlePowerCommand` (lines 207-229): `turn_on` sends the
wake POST and, on success, sleeps 3 seconds; `turn_off` sends the `sleep`
navigation command. -/
def handlePowerCommand (dev : DeviceState) (command : String) :
    List ClientCall :=
  if command = "turn_on" then
    ClientCall.wake dev.wakeSucceeds
      :: (if dev.wakeSucceeds then [ClientCall.settleWait 3] else [])
  else if command = "turn_off" then [ClientCall.navigation "sleep"]
  else []

/-- `CommandHandler::handleAppLaunchCommand` (lines 231-263). -/
def handleAppLaunchCommand (p : CommandPayload) : List ClientCall :=
  match p.package with
  | some pkg => [ClientCall.appLaunch pkg]
  | none =>
      match p.source with
      | some app_name =>
          let pkg := getPackageForApp app_name
          if pkg = "" then [] else [ClientCall.appLaunch pkg]
      | none => []

/-- `CommandHandler::handleTextInputCommand` (lines 291-323). -/
def handleTextInputCommand (p : CommandPayload) : List ClientCall :=
  match p.text with
  | some t => if t = "" then [] else [ClientCall.keyboard t]
  | none => []

/-- `command.find("media_") == 0` from the routing switch: the command name
begins with the given literal (spelled out over the character list so that
concrete instances evaluate). -/
def stringBegins (s pre : String) : Bool :=
  decide (s.toList.take pre.toList.length = pre.toList)

/-- `CommandHandler::handleCommand` (CommandHandler.cpp lines 30-68): route
the command by name to a sub-handler and record the protocol calls it
issues to the client.  Missing `command` field and unknown names contact the
device not at all; the trailing `updateLastSeen` database write is not a
client call.  Note that none of the routes consults
`isLightningApiAvailable` or wakes the device first (except `turn_on`,
whose whole point is the wake POST). -/
def handleCommand (dev : DeviceState) (p : CommandPayload) :
    List ClientCall :=
  match p.command with
  | none => []
  | some command =>
      if stringBegins command "media_" then handleMediaCommand command
      else if stringBegins command "volume_" then handleVolumeCommand command
      else if command = "turn_on" ∨ command = "turn_off" then
        handlePowerCommand dev command
      else if command = "navigate" then handleNavigationCommand p
      else if command = "select_source" ∨ command = "launch_app" then
        handleAppLaunchCommand p
      else if command = "send_text" ∨ command = "keyboard_input" then
        handleTextInputCommand p
      else []

/-- Modelled from the spec: `CommandHandler::ensureDeviceAwake` is declared
in `include/mqtt/CommandHandler.h` (lines 101-110) and exercised by
`tests/test_command_handler.cpp`, but its definition is missing from the
sources.  Spec section 4.2: query `isApiAvailable()`; if false, call
`wake()`, wait a fixed settle interval, and re-check; the caller must not
proceed to the protocol action if the device is still unavailable.  Returns
the trace of the cycle plus whether the device ended up available. -/
def ensureDeviceAwake (dev : DeviceState) (settleSeconds : Nat) :
    List ClientCall × Bool :=
  if dev.apiAvailable then ([ClientCall.apiCheck true], true)
  else
    ([ClientCall.apiCheck false, ClientCall.wake dev.wakeSucceeds,
      ClientCall.settleWait settleSeconds, ClientCall.apiCheck dev.apiAvailable],
     dev.apiAvailable)

/-- Claim C2 (evidence of the divergence): dispatching the non-`turn_on`
command `volume_up` to a device whose API is unavailable issues the
navigation POST immediately — the trace holds no availability check and no
wake, so the one-wake-then-recheck cycle the claim requires never happens
and the protocol action proceeds although the device is unavailable; the
spec-modelled `ensureDeviceAwake` cycle by contrast always opens with an
availability check and reports the still-unavailable device as not ready.
(The claim's `turn_on` half does hold: its trace is the bare wake POST with
no availability check.) -/
theorem handleCommand_skips_wake_cycle_for_volume_up :
    (handleCommand ⟨false, false⟩ { command := some "volume_up" }
        = [ClientCall.navigation "volume_up"])
    ∧ (∀ c ∈ handleCommand ⟨false, false⟩ { command := some "volume_up" },
        (∀ b, c ≠ ClientCall.apiCheck b) ∧ (∀ b, c ≠ ClientCall.wake b))
    ∧ ((ensureDeviceAwake ⟨false, false⟩ 3).1.head?
        = some (ClientCall.apiCheck false)
      ∧ (ensureDeviceAwake ⟨false, false⟩ 3).2 = false)
    ∧ (handleCommand ⟨false, true⟩ { command := some "turn_on" }
        = [ClientCall.wake true, ClientCall.settleWait 3]
      ∧ ∀ c ∈ handleCommand ⟨false, true⟩ { command := some "turn_on" },
          ∀ b, c ≠ ClientCall.apiCheck b) := by
  decide
